import Mathlib

/-!
Verification of the FlashRead backend (src/backend/server.js).

The backend has two handlers:
  * GET /api/news — selects an upstream mode, forwards query parameters,
    and normalizes each returned record via normalizeArticle;
  * POST /api/ai/enrich — builds a prompt, sends it to a completion
    provider, parses the completion text as JSON and coerces the result
    into a fixed shape.

We model JavaScript values produced by JSON.parse with the inductive
type JsonValue (numbers are kept as a decimal mantissa/exponent pair so
that integer literals embed exactly), JS objects as association lists in
insertion order, and the JS notion of undefined as Option.none where a
property read can miss.
-/

set_option autoImplicit false

namespace FlashRead

/-- A JavaScript value as produced by JSON.parse: null, booleans, numbers
(decimal mantissa and power-of-ten exponent), strings, arrays, objects
(fields in insertion order, keys unique). -/
inductive JsonValue where
  | null
  | bool (b : Bool)
  | num (mantissa : Int) (exp10 : Int)
  | str (s : String)
  | arr (elems : List JsonValue)
  | obj (fields : List (String × JsonValue))

/-- Property lookup on an association list (JS object field read);
none models the JS value undefined. -/
def olookup {α : Type} : List (String × α) → String → Option α
  | [], _ => none
  | (k, v) :: rest, key => if k = key then some v else olookup rest key

/-- JS property assignment obj[k] = v: overwrite in place if the key
exists, otherwise append (insertion order preserved). -/
def setField {α : Type} : List (String × α) → String → α → List (String × α)
  | [], key, v => [(key, v)]
  | (k, w) :: rest, key, v =>
    if k = key then (key, v) :: rest else (k, w) :: setField rest key v

/-- Remove a key from an association list (used to state what a handler
does when a field is absent upstream). -/
def eraseField {α : Type} : List (String × α) → String → List (String × α)
  | [], _ => []
  | (k, v) :: rest, key =>
    if k = key then eraseField rest key else (k, v) :: eraseField rest key

/-- JS truthiness of a defined value: null, false, 0 and the empty
string are falsy; arrays and objects are always truthy. -/
def truthyV : JsonValue → Bool
  | .null => false
  | .bool b => b
  | .num m _ => decide (m ≠ 0)
  | .str s => decide (s ≠ "")
  | .arr _ => true
  | .obj _ => true

/-- JS truthiness of a possibly-undefined value: undefined is falsy. -/
def truthyO : Option JsonValue → Bool
  | none => false
  | some v => truthyV v

/-- The JS idiom x || d on a possibly-undefined value. -/
def jsOr (x : Option JsonValue) (d : JsonValue) : JsonValue :=
  match x with
  | some v => if truthyV v then v else d
  | none => d

/-- Whitespace accepted by the JSON grammar (what JSON.parse skips). -/
def isJsonWs (c : Char) : Bool :=
  c = ' ' || c = '\t' || c = '\n' || c = '\r'

/-- Whitespace removed by JavaScript String.prototype.trim (the ASCII
part, which is all the backend ever receives in this model). -/
def isJsWs (c : Char) : Bool :=
  c = ' ' || c = '\t' || c = '\n' || c = '\r' || c = '\x0b' || c = '\x0c'

/-- JavaScript String.prototype.toLowerCase (character-wise, which is
all the ASCII inputs here need). -/
def jsToLowerCase (s : String) : String :=
  String.mk (s.data.map Char.toLower)

/-- Drop leading JSON whitespace. -/
def skipWs : List Char → List Char
  | [] => []
  | c :: cs => if isJsonWs c then skipWs cs else c :: cs

/-- JavaScript String.prototype.trim. -/
def jsTrim (s : String) : String :=
  String.mk (((s.data.dropWhile isJsWs).reverse.dropWhile isJsWs).reverse)

/-- JavaScript String.prototype.slice(0, n) (prefix of length n). -/
def jsSlice (s : String) (n : Nat) : String :=
  String.mk (s.data.take n)

/-- Value of a hexadecimal digit, if any (for the \u escape). -/
def hexVal (c : Char) : Option Nat :=
  if '0' ≤ c && c ≤ '9' then some (c.toNat - 48)
  else if 'a' ≤ c && c ≤ 'f' then some (c.toNat - 87)
  else if 'A' ≤ c && c ≤ 'F' then some (c.toNat - 70)
  else none

/-- Parse the body of a JSON string literal after its opening quote,
handling the escape sequences JSON.parse accepts and rejecting raw
control characters. Returns the decoded string and the remaining input. -/
def parseStringRest (acc : List Char) : List Char → Option (String × List Char)
  | [] => none
  | c :: cs =>
    if c = '"' then some (String.mk acc.reverse, cs)
    else if c = '\\' then
      match cs with
      | [] => none
      | e :: cs2 =>
        if e = '"' then parseStringRest ('"' :: acc) cs2
        else if e = '\\' then parseStringRest ('\\' :: acc) cs2
        else if e = '/' then parseStringRest ('/' :: acc) cs2
        else if e = 'b' then parseStringRest ('\x08' :: acc) cs2
        else if e = 'f' then parseStringRest ('\x0c' :: acc) cs2
        else if e = 'n' then parseStringRest ('\n' :: acc) cs2
        else if e = 'r' then parseStringRest ('\r' :: acc) cs2
        else if e = 't' then parseStringRest ('\t' :: acc) cs2
        else if e = 'u' then
          match cs2 with
          | a :: b :: c3 :: d :: cs3 =>
            match hexVal a, hexVal b, hexVal c3, hexVal d with
            | some ha, some hb, some hc, some hd =>
              parseStringRest (Char.ofNat (((ha * 16 + hb) * 16 + hc) * 16 + hd) :: acc) cs3
            | _, _, _, _ => none
          | _ => none
        else none
    else if c.toNat < 32 then none
    else parseStringRest (c :: acc) cs

/-- Numeric value of a run of decimal digit characters. -/
def digitsToNat (ds : List Char) : Nat :=
  ds.foldl (fun a c => a * 10 + (c.toNat - 48)) 0

/-- Canonicalize a mantissa/exponent pair the way JS number equality
identifies values: 1e3 becomes 1000; trailing zeros of a fractional
mantissa are stripped; zero is 0e0. -/
def stripTens : Int → Nat → Int × Nat
  | m, 0 => (m, 0)
  | m, k + 1 => if m % 10 = 0 then stripTens (m / 10) k else (m, k + 1)

/-- Build the canonical numeric JsonValue from mantissa and exponent. -/
def normNum (m e : Int) : JsonValue :=
  if m = 0 then .num 0 0
  else if 0 ≤ e then .num (m * (10 : Int) ^ e.toNat) 0
  else
    let (m2, k2) := stripTens m (-e).toNat
    .num m2 (-(k2 : Int))

/-- Parse a JSON number token (sign, integer part without leading
zeros, optional fraction, optional exponent), as JSON.parse does. -/
def parseNumber (cs : List Char) : Option (JsonValue × List Char) :=
  let signed := match cs with
    | '-' :: r => (true, r)
    | _ => (false, cs)
  let neg := signed.1
  let cs1 := signed.2
  match cs1 with
  | [] => none
  | c :: rest =>
    if !c.isDigit then none
    else
      let ipart := if c = '0' then (['0'], rest) else cs1.span Char.isDigit
      let intDs := ipart.1
      let cs2 := ipart.2
      let frac := match cs2 with
        | '.' :: cs3 =>
          let f := cs3.span Char.isDigit
          if f.1.isEmpty then none else some (f.1, f.2)
        | _ => some ([], cs2)
      match frac with
      | none => none
      | some (fracDs, cs4) =>
        let expo := match cs4 with
          | e :: cs5 =>
            if e = 'e' || e = 'E' then
              let signed2 := match cs5 with
                | '+' :: r2 => (false, r2)
                | '-' :: r2 => (true, r2)
                | _ => (false, cs5)
              let d := signed2.2.span Char.isDigit
              if d.1.isEmpty then none
              else some ((if signed2.1 then -(digitsToNat d.1 : Int) else (digitsToNat d.1 : Int)), d.2)
            else some (0, cs4)
          | [] => some (0, cs4)
        match expo with
        | none => none
        | some (expVal, cs6) =>
          let m0 : Int := (digitsToNat (intDs ++ fracDs) : Int)
          let m := if neg then -m0 else m0
          let e : Int := expVal - (fracDs.length : Int)
          some (normNum m e, cs6)

/-- Match an expected literal suffix (for true, false, null). -/
def expectChars : List Char → List Char → Option (List Char)
  | [], cs => some cs
  | _ :: _, [] => none
  | e :: es, c :: cs => if c = e then expectChars es cs else none

mutual

/-- Parse one JSON value (fuel-indexed recursive descent mirroring
JSON.parse; duplicate object keys follow last-wins semantics via
setField, as in JavaScript). -/
def parseValue : Nat → List Char → Option (JsonValue × List Char)
  | 0, _ => none
  | fuel + 1, cs =>
    match skipWs cs with
    | [] => none
    | c :: cs1 =>
      if c = '"' then
        match parseStringRest [] cs1 with
        | some (s, r) => some (.str s, r)
        | none => none
      else if c = '\x7b' then
        match skipWs cs1 with
        | '\x7d' :: r => some (.obj [], r)
        | cs2 => parseMembers fuel cs2 []
      else if c = '[' then
        match skipWs cs1 with
        | ']' :: r => some (.arr [], r)
        | cs2 => parseArrItems fuel cs2 []
      else if c = 't' then
        match expectChars ['r', 'u', 'e'] cs1 with
        | some r => some (.bool true, r)
        | none => none
      else if c = 'f' then
        match expectChars ['a', 'l', 's', 'e'] cs1 with
        | some r => some (.bool false, r)
        | none => none
      else if c = 'n' then
        match expectChars ['u', 'l', 'l'] cs1 with
        | some r => some (.null, r)
        | none => none
      else parseNumber (c :: cs1)

/-- Parse the members of a JSON object after its opening brace. -/
def parseMembers : Nat → List Char → List (String × JsonValue) → Option (JsonValue × List Char)
  | 0, _, _ => none
  | fuel + 1, cs, acc =>
    match skipWs cs with
    | '"' :: cs1 =>
      match parseStringRest [] cs1 with
      | some (k, r) =>
        match skipWs r with
        | ':' :: r2 =>
          match parseValue fuel r2 with
          | some (v, r3) =>
            match skipWs r3 with
            | ',' :: r4 => parseMembers fuel r4 (setField acc k v)
            | '\x7d' :: r4 => some (.obj (setField acc k v), r4)
            | _ => none
          | none => none
        | _ => none
      | none => none
    | _ => none

/-- Parse the items of a JSON array after its opening bracket. -/
def parseArrItems : Nat → List Char → List JsonValue → Option (JsonValue × List Char)
  | 0, _, _ => none
  | fuel + 1, cs, acc =>
    match parseValue fuel cs with
    | some (v, r) =>
      match skipWs r with
      | ',' :: r2 => parseArrItems fuel r2 (acc ++ [v])
      | ']' :: r2 => some (.arr (acc ++ [v]), r2)
      | _ => none
    | none => none

end

/-- The model of JSON.parse: parse one value, require only whitespace
after it; none models a thrown SyntaxError. -/
def jsonParse (s : String) : Option JsonValue :=
  match parseValue (s.length * 2 + 8) s.data with
  | some (v, rest) => if skipWs rest = [] then some v else none
  | none => none

/-- Decimal rendering of a canonical mantissa/exponent number (only its
stringiness matters to the theorems below; no claim inspects its text). -/
def numToString (m e : Int) : String :=
  if 0 ≤ e then toString (m * (10 : Int) ^ e.toNat)
  else
    let k := (-e).toNat
    let a := m.natAbs
    let fpDigits := Nat.toDigits 10 (a % 10 ^ k)
    (if m < 0 then "-" else "") ++ toString (a / 10 ^ k) ++ "." ++
      String.mk (List.replicate (k - fpDigits.length) '0') ++ String.mk fpDigits

mutual

/-- JavaScript String(v) conversion of a JSON value (array conversion
is Array.prototype.join with commas, null becoming empty inside). -/
def jsToString : JsonValue → String
  | .null => "null"
  | .bool true => "true"
  | .bool false => "false"
  | .num m e => numToString m e
  | .str s => s
  | .arr xs => arrToString xs
  | .obj _ => "[object Object]"

/-- Array.prototype.toString: elements joined with commas, null
elements rendered as the empty string. -/
def arrToString : List JsonValue → String
  | [] => ""
  | [x] =>
    match x with
    | .null => ""
    | x => jsToString x
  | x :: xs =>
    (match x with
     | .null => ""
     | x => jsToString x) ++ "," ++ arrToString xs

end


/-! ## normalizeArticle (server.js lines 25–36) -/

/-- The chain a.source?.name: undefined unless source is an object with
a name field (optional chaining returns undefined on null/undefined, and
a name read on a primitive or array is undefined). -/
def sourceName : Option JsonValue → Option JsonValue
  | some (.obj fs) => olookup fs "name"
  | _ => none

/-- normalizeArticle from server.js: each output value is an
Option JsonValue where none models the JS value undefined (only the url
field, copied unmodified, can be undefined). -/
def normalizeArticle (a : List (String × JsonValue)) : List (String × Option JsonValue) :=
  [("title", some (jsOr (olookup a "title") (.str ""))),
   ("source", some (jsOr (sourceName (olookup a "source")) (.str "Unknown"))),
   ("author", some (jsOr (olookup a "author") .null)),
   ("description", some (jsOr (olookup a "description") (.str ""))),
   ("content", some (jsOr (olookup a "content") (.str ""))),
   ("url", olookup a "url"),
   ("urlToImage", some (jsOr (olookup a "urlToImage") .null)),
   ("publishedAt", some (jsOr (olookup a "publishedAt") (.str "")))]

/-- The Article field defaults documented in spec §3 (spec-side
definition, for comparison with normalizeArticle): title, source,
description, content default to the empty string; author and urlToImage
default to null. -/
def specArticleDefaults : List (String × Option JsonValue) :=
  [("title", some (.str "")),
   ("source", some (.str "")),
   ("author", some .null),
   ("description", some (.str "")),
   ("content", some (.str "")),
   ("urlToImage", some .null)]

/-! ## GET /api/news (server.js lines 45–93) -/

/-- Truthiness of an environment variable or query string: undefined
and the empty string are falsy. -/
def optTruthy : Option String → Bool
  | none => false
  | some s => decide (s ≠ "")

/-- What the news handler decides to do before any upstream call:
either answer with a configuration error or issue one upstream GET. -/
inductive NewsAction where
  | configError (msg : String)
  | fetch (url : String) (params : List (String × String))

/-- Number of upstream calls a news action performs. -/
def newsUpstreamCalls : NewsAction → Nat
  | .configError _ => 0
  | .fetch _ _ => 1

/-- Upstream endpoint used in headlines mode. -/
def topHeadlinesUrl : String := "https://newsapi.org/v2/top-headlines"

/-- Upstream endpoint used in search mode. -/
def everythingUrl : String := "https://newsapi.org/v2/everything"

/-- The configuration error message of the news handler. -/
def newsKeyMissingMsg : String :=
  "NEWS_API_KEY missing. Add it to backend .env (NEWS_API_KEY=...)."

/-- The request-shaping logic of GET /api/news after query
destructuring: the credential check, the headlines/search mode split,
and the parameter forwarding, exactly as in server.js lines 58–85. -/
def newsAction (apiKey : Option String)
    (q country category fromP toP pageSize page sortBy : String) : NewsAction :=
  if optTruthy apiKey then
    let key := apiKey.getD ""
    let base := [("apiKey", key), ("pageSize", pageSize), ("page", page)]
    if country ≠ "" ∨ category ≠ "" then
      let p1 := if country ≠ "" then setField base "country" country else base
      let p2 := if category ≠ "" then setField p1 "category" (jsToLowerCase category) else p1
      let p3 := if q ≠ "" then setField p2 "q" q else p2
      .fetch topHeadlinesUrl p3
    else
      let p1 := if q ≠ "" then setField base "q" q else base
      let p2 := if fromP ≠ "" then setField p1 "from" fromP else p1
      let p3 := if toP ≠ "" then setField p2 "to" toP else p2
      let p4 := setField p3 "sortBy" sortBy
      let p5 := if optTruthy (olookup p4 "q") then p4 else setField p4 "q" "news"
      .fetch everythingUrl p5
  else .configError newsKeyMissingMsg

/-- The query destructuring of the handler (lines 47–56): each
parameter defaults when absent from req.query. -/
def newsActionQ (apiKey : Option String) (query : List (String × String)) : NewsAction :=
  newsAction apiKey
    ((olookup query "q").getD "")
    ((olookup query "country").getD "")
    ((olookup query "category").getD "")
    ((olookup query "from").getD "")
    ((olookup query "to").getD "")
    ((olookup query "pageSize").getD "10")
    ((olookup query "page").getD "1")
    ((olookup query "sortBy").getD "publishedAt")

/-! ## POST /api/ai/enrich — request side (server.js lines 100–133) -/

/-- What the enrich handler decides before any upstream call. -/
inductive EnrichAction where
  | configError (msg : String)
  | callModel (model : String) (messages : List (String × String))

/-- Number of upstream calls an enrich action performs. -/
def enrichUpstreamCalls : EnrichAction → Nat
  | .configError _ => 0
  | .callModel _ _ => 1

/-- The configuration error message of the enrich handler. -/
def aiNotConfiguredMsg : String :=
  "AI provider not configured. Set AI_PROVIDER=openai and OPENAI_API_KEY in .env"

/-- AI_PROVIDER resolution (line 15): default to openai when the
environment variable is absent or empty, then lowercase. -/
def resolveProvider (providerEnv : Option String) : String :=
  jsToLowerCase
    (match providerEnv with
     | some s => if s ≠ "" then s else "openai"
     | none => "openai")

/-- Whether the module-level openaiClient is non-null (lines 17–20):
it is created only when the resolved provider is openai and
OPENAI_API_KEY is truthy. -/
def clientReady (providerEnv openaiKeyEnv : Option String) : Bool :=
  decide (resolveProvider providerEnv = "openai") && optTruthy openaiKeyEnv

/-- The text blob of line 111: keep the truthy (non-empty) fields and
join them with a blank line. -/
def textBlob (title description content : String) : String :=
  String.intercalate "\n\n" (([title, description, content]).filter (fun s => s ≠ ""))

/-- The prompt template of lines 113–124, trimmed like the source. -/
def mkPrompt (text : String) : String :=
  jsTrim ("\nYou are an assistant that analyzes news articles.\nGiven the article text below, return a JSON object with:\n- \"summary100\": a concise summary under 100 words.\n- \"sentiment\": one of \"Positive\", \"Negative\", or \"Neutral\".\n- \"takeaways\": exactly 3 short bullet points (strings).\n\nArticle:\n" ++ text ++ "\n\nRespond ONLY with valid JSON (no backticks, no extra text).\n")

/-- The request-shaping half of POST /api/ai/enrich: the provider and
client checks, and the two-message completion request of lines 126–133. -/
def enrichAction (providerEnv openaiKeyEnv : Option String)
    (title description content : String) : EnrichAction :=
  if resolveProvider providerEnv ≠ "openai" ∨ clientReady providerEnv openaiKeyEnv = false then
    .configError aiNotConfiguredMsg
  else
    .callModel "gpt-4o-mini"
      [("system", "You are a helpful news assistant."),
       ("user", mkPrompt (textBlob title description content))]

/-! ## POST /api/ai/enrich — response side (server.js lines 135–169) -/

/-- A chat completion message (content may be undefined). -/
structure Message where
  content : Option String

/-- One completion choice (message may be undefined). -/
structure Choice where
  message : Option Message

/-- The upstream completion object: a list of choices. -/
structure Completion where
  choices : List Choice

/-- The optional chain completion.choices?.[0]?.message?.content. -/
def contentText (c : Completion) : Option String :=
  match c.choices.head? with
  | none => none
  | some ch =>
    match ch.message with
    | none => none
    | some m => m.content

/-- Line 135: trim the first choice's text through the optional chain,
then default a missing or empty result to the two-character text
consisting of an opening and a closing brace. -/
def rawText (c : Completion) : String :=
  match contentText c with
  | none => "\x7b\x7d"
  | some s => if jsTrim s = "" then "\x7b\x7d" else jsTrim s

/-- The fixed fallback substituted on JSON.parse failure
(lines 142–151). -/
def fallbackParsed : JsonValue :=
  .obj
    [("summary100", .str "Summary not available due to parsing error. Please try again."),
     ("sentiment", .str "Neutral"),
     ("takeaways", .arr
       [.str "Summary failed to parse.",
        .str "Try again or open the article.",
        .str "Check network/API limits."])]

/-- The parsed value the coercion block receives: the JSON parse of the
raw text, or the fixed fallback when parsing fails (lines 137–152). -/
def parsedOf (c : Completion) : JsonValue :=
  (jsonParse (rawText c)).getD fallbackParsed

/-- allowed.includes(parsed.sentiment) of lines 156–157: strict
equality against the three labels, false for any non-string. -/
def allowedSentiment : Option JsonValue → Bool
  | some (.str s) => s == "Positive" || s == "Negative" || s == "Neutral"
  | _ => false

/-- Lines 158–163, the takeaways repair. An Except.error models the
strict-mode TypeError thrown when .slice is called on a truthy value
that has no such method (numbers, booleans, plain objects), which the
outer catch turns into a 500. An array of exactly 3 is kept as is; any
other array is truncated and padded; a falsy or missing value becomes
three empty strings; a truthy string goes through String.prototype
slice/concat, which yields a string, not an array. -/
def coerceTakeaways : Option JsonValue → Except Unit JsonValue
  | some (.arr xs) =>
    if xs.length = 3 then .ok (.arr xs)
    else .ok (.arr ((xs.take 3 ++ [JsonValue.str "", JsonValue.str "", JsonValue.str ""]).take 3))
  | t =>
    if truthyO t then
      match t with
      | some (.str s) => .ok (.str (jsSlice (jsSlice s 3 ++ ",,") 3))
      | _ => .error ()
    else .ok (.arr [.str "", .str "", .str ""])

/-- Line 155: parsed.summary100 = String(parsed.summary100 || "")
sliced to 900. -/
def coerceSummary (fs : List (String × JsonValue)) : List (String × JsonValue) :=
  setField fs "summary100"
    (.str (jsSlice (jsToString (jsOr (olookup fs "summary100") (.str ""))) 900))

/-- Lines 156–157: force sentiment to Neutral unless it is already one
of the three allowed labels. -/
def coerceSentiment (fs : List (String × JsonValue)) : List (String × JsonValue) :=
  if allowedSentiment (olookup fs "sentiment") then fs
  else setField fs "sentiment" (.str "Neutral")

/-- The ensure-shape block of lines 154–163 applied to the parsed
value, followed by res.json. On an object it performs the three
field repairs in order. On an array the three property writes succeed
but are invisible to the JSON serialization, so the array is sent
unchanged. On a primitive the first property assignment throws a
strict-mode TypeError (an ES module runs in strict mode), which the
outer catch turns into a 500. -/
def ensureShape : JsonValue → Except Unit JsonValue
  | .obj fs =>
    match coerceTakeaways (olookup (coerceSentiment (coerceSummary fs)) "takeaways") with
    | .ok tv => .ok (.obj (setField (coerceSentiment (coerceSummary fs)) "takeaways" tv))
    | .error e => .error e
  | .arr xs => .ok (.arr xs)
  | _ => .error ()

/-- An HTTP response: a status code and a JSON body. -/
structure HttpResponse where
  status : Nat
  body : JsonValue

/-- The generic failure body of the enrich handler's catch block. -/
def enrichFailureBody : JsonValue :=
  .obj [("error", .str "Failed to enrich article")]

/-- The response of POST /api/ai/enrich as a function of the upstream
completion (lines 135–169): parse with fallback, coerce, respond 200;
a coercion TypeError reaches the catch and yields the generic 500. -/
def enrichRespond (c : Completion) : HttpResponse :=
  match ensureShape (parsedOf c) with
  | .ok v => ⟨200, v⟩
  | .error _ => ⟨500, enrichFailureBody⟩

/-! ## Spec-side shape predicates and a boolean equality on values -/

mutual

/-- Structural boolean equality of JSON values. -/
def beqJson : JsonValue → JsonValue → Bool
  | .null, .null => true
  | .bool a, .bool b => a == b
  | .num m e, .num n f => m == n && e == f
  | .str a, .str b => a == b
  | .arr a, .arr b => beqJsonList a b
  | .obj a, .obj b => beqJsonFields a b
  | _, _ => false

/-- Structural boolean equality of value lists. -/
def beqJsonList : List JsonValue → List JsonValue → Bool
  | [], [] => true
  | x :: xs, y :: ys => beqJson x y && beqJsonList xs ys
  | _, _ => false

/-- Structural boolean equality of field lists. -/
def beqJsonFields : List (String × JsonValue) → List (String × JsonValue) → Bool
  | [], [] => true
  | (k, v) :: xs, (l, w) :: ys => k == l && beqJson v w && beqJsonFields xs ys
  | _, _ => false

end

/-- True of string values. -/
def isStr : JsonValue → Bool
  | .str _ => true
  | _ => false

/-- The EnrichmentResult shape invariant exactly as spec §3 words it
(spec-side definition): summary100 a string of at most 900 characters,
sentiment exactly one of the three labels, takeaways an array of
exactly 3 strings. -/
def isEnrichmentResult (v : JsonValue) : Bool :=
  match v with
  | .obj fs =>
    (match olookup fs "summary100" with
     | some (.str s) => decide (s.length ≤ 900)
     | _ => false) &&
    (match olookup fs "sentiment" with
     | some (.str s) => s == "Positive" || s == "Negative" || s == "Neutral"
     | _ => false) &&
    (match olookup fs "takeaways" with
     | some (.arr xs) => (xs.length == 3) && xs.all isStr
     | _ => false)
  | _ => false

/-! ## Association-list lemmas -/

theorem olookup_setField_self {α : Type} (l : List (String × α)) (k : String) (v : α) :
    olookup (setField l k v) k = some v := by
  induction l with
  | nil => simp [setField, olookup]
  | cons p rest ih =>
    obtain ⟨k2, w⟩ := p
    by_cases h : k2 = k
    · simp [setField, h, olookup]
    · simp [setField, h, olookup, ih]

theorem olookup_setField_ne {α : Type} (l : List (String × α)) (k g : String) (v : α)
    (h : g ≠ k) : olookup (setField l k v) g = olookup l g := by
  induction l with
  | nil => simp [setField, olookup, Ne.symm h]
  | cons p rest ih =>
    obtain ⟨k2, w⟩ := p
    by_cases h2 : k2 = k
    · subst h2
      simp [setField, olookup, Ne.symm h]
    · by_cases h3 : k2 = g
      · simp [setField, h2, olookup, h3, h]
      · simp [setField, h2, olookup, h3, ih]

theorem olookup_eraseField_self {α : Type} (l : List (String × α)) (k : String) :
    olookup (eraseField l k) k = none := by
  induction l with
  | nil => simp [eraseField, olookup]
  | cons p rest ih =>
    obtain ⟨k2, w⟩ := p
    by_cases h : k2 = k
    · simp [eraseField, h, ih]
    · simp [eraseField, h, olookup, ih]

theorem olookup_eraseField_ne {α : Type} (l : List (String × α)) (k g : String)
    (h : g ≠ k) : olookup (eraseField l k) g = olookup l g := by
  induction l with
  | nil => simp [eraseField, olookup]
  | cons p rest ih =>
    obtain ⟨k2, w⟩ := p
    by_cases h2 : k2 = k
    · subst h2
      simp [eraseField, olookup, Ne.symm h, ih]
    · by_cases h3 : k2 = g
      · simp [eraseField, h2, olookup, h3, h]
      · simp [eraseField, h2, olookup, h3, ih]

/-! ## Lemmas about the JS defaulting idiom -/

theorem jsOr_falsy {v : JsonValue} (hv : truthyV v = false) (d : JsonValue) :
    jsOr (some v) d = d := by
  simp [jsOr, hv]

theorem sourceName_falsy {v : JsonValue} (hv : truthyV v = false) :
    sourceName (some v) = none := by
  cases v <;> simp_all [sourceName, truthyV]

theorem jsOr_set_erase (a : List (String × JsonValue)) (f : String) (v : JsonValue)
    (hv : truthyV v = false) (g : String) (d : JsonValue) :
    jsOr (olookup (setField a f v) g) d = jsOr (olookup (eraseField a f) g) d := by
  by_cases hg : g = f
  · subst hg
    rw [olookup_setField_self, olookup_eraseField_self, jsOr_falsy hv]
    rfl
  · rw [olookup_setField_ne _ _ _ _ hg, olookup_eraseField_ne _ _ _ hg]

theorem sourceName_set_erase (a : List (String × JsonValue)) (f : String) (v : JsonValue)
    (hv : truthyV v = false) (d : JsonValue) :
    jsOr (sourceName (olookup (setField a f v) "source")) d =
      jsOr (sourceName (olookup (eraseField a f) "source")) d := by
  by_cases hg : "source" = f
  · subst hg
    rw [olookup_setField_self, olookup_eraseField_self, sourceName_falsy hv]
    rfl
  · rw [olookup_setField_ne _ _ _ _ hg, olookup_eraseField_ne _ _ _ hg]

theorem jsOr_null_ne_empty (t : Option JsonValue) :
    jsOr t JsonValue.null ≠ JsonValue.str "" := by
  cases t with
  | none => simp [jsOr]
  | some w =>
    simp only [jsOr]
    by_cases hw : truthyV w = true
    · rw [if_pos hw]
      intro h
      subst h
      simp [truthyV] at hw
    · rw [if_neg hw]
      intro h
      exact JsonValue.noConfusion h

theorem jsOr_empty_falsy (t : Option JsonValue)
    (h : truthyV (jsOr t (JsonValue.str "")) = false) :
    jsOr t (JsonValue.str "") = JsonValue.str "" := by
  cases t with
  | none => rfl
  | some w =>
    simp only [jsOr] at h ⊢
    by_cases hw : truthyV w = true
    · rw [if_pos hw] at h
      exact absurd hw (by simp [h])
    · rw [if_neg hw]

/-! ## Claim theorems about normalizeArticle -/

/-- Claim C2, counterexample: on an empty upstream record the
normalized source field is the string Unknown, while the documented
Article default for source (spec §3) is the empty string, so the
documented defaults are not all applied. -/
theorem c2_counterexample :
    olookup (normalizeArticle []) "source" = some (some (JsonValue.str "Unknown")) ∧
    olookup specArticleDefaults "source" = some (some (JsonValue.str "")) ∧
    JsonValue.str "Unknown" ≠ JsonValue.str "" := by
  refine ⟨rfl, rfl, ?_⟩
  intro h
  injection h with h2
  exact absurd h2 (by decide)

/-- Claim C2, amended: for every upstream record object the normalized
article has all eight keys present, and each absent field receives the
code's default — empty string for title, description, content,
publishedAt; the string Unknown (not the empty string) for source; null
for author and urlToImage; url is carried through and is undefined when
absent. -/
theorem c2_amended_article_shape (a : List (String × JsonValue)) :
    (normalizeArticle a).map Prod.fst =
      ["title", "source", "author", "description", "content", "url", "urlToImage",
        "publishedAt"] ∧
    (olookup a "title" = none →
      olookup (normalizeArticle a) "title" = some (some (JsonValue.str ""))) ∧
    (olookup a "source" = none →
      olookup (normalizeArticle a) "source" = some (some (JsonValue.str "Unknown"))) ∧
    (olookup a "author" = none →
      olookup (normalizeArticle a) "author" = some (some JsonValue.null)) ∧
    (olookup a "description" = none →
      olookup (normalizeArticle a) "description" = some (some (JsonValue.str ""))) ∧
    (olookup a "content" = none →
      olookup (normalizeArticle a) "content" = some (some (JsonValue.str ""))) ∧
    (olookup a "url" = none → olookup (normalizeArticle a) "url" = some none) ∧
    (olookup a "urlToImage" = none →
      olookup (normalizeArticle a) "urlToImage" = some (some JsonValue.null)) ∧
    (olookup a "publishedAt" = none →
      olookup (normalizeArticle a) "publishedAt" = some (some (JsonValue.str ""))) := by
  refine ⟨rfl, ?_, ?_, ?_, ?_, ?_, ?_, ?_, ?_⟩ <;>
    first
      | (intro h
         simp only [normalizeArticle, h]
         rfl)

/-- Claim C2 witness: the amended theorem applied to the empty record,
every hypothesis discharged by evaluation. -/
theorem c2_amended_article_shape_witness :
    (normalizeArticle []).map Prod.fst =
      ["title", "source", "author", "description", "content", "url", "urlToImage",
        "publishedAt"] ∧
    olookup (normalizeArticle []) "title" = some (some (JsonValue.str "")) ∧
    olookup (normalizeArticle []) "url" = some none :=
  ⟨(c2_amended_article_shape []).1, (c2_amended_article_shape []).2.1 rfl,
    (c2_amended_article_shape []).2.2.2.2.2.2.1 rfl⟩

/-- Claim C6, counterexample: the claim says a record with absent
source normalizes to an empty-string source, but the code produces the
string Unknown. -/
theorem c6_counterexample :
    olookup (normalizeArticle []) "source" ≠ some (some (JsonValue.str "")) := by
  intro h
  injection h with h2
  injection h2 with h3
  injection h3 with h4
  exact absurd h4 (by decide)

/-- Claim C6, amended: for every upstream record whose source is
absent, the normalized source field is the string Unknown; title,
description and content do default to the empty string when absent. -/
theorem c6_amended_defaults (a : List (String × JsonValue)) :
    (olookup a "source" = none →
      olookup (normalizeArticle a) "source" = some (some (JsonValue.str "Unknown"))) ∧
    (olookup a "title" = none →
      olookup (normalizeArticle a) "title" = some (some (JsonValue.str ""))) ∧
    (olookup a "description" = none →
      olookup (normalizeArticle a) "description" = some (some (JsonValue.str ""))) ∧
    (olookup a "content" = none →
      olookup (normalizeArticle a) "content" = some (some (JsonValue.str ""))) := by
  refine ⟨?_, ?_, ?_, ?_⟩ <;>
    first
      | (intro h
         simp only [normalizeArticle, h]
         rfl)

/-- Claim C6 witness: the amended theorem at the empty record. -/
theorem c6_amended_defaults_witness :
    olookup (normalizeArticle []) "source" = some (some (JsonValue.str "Unknown")) :=
  (c6_amended_defaults []).1 rfl

/-- Claim C8: normalization is deterministic — structurally equal input
records produce structurally equal normalized articles. -/
theorem c8_normalization_deterministic (a b : List (String × JsonValue)) (h : a = b) :
    normalizeArticle a = normalizeArticle b := by
  rw [h]

/-- Claim C8 witness: the determinism theorem at a concrete record. -/
theorem c8_normalization_deterministic_witness :
    normalizeArticle [("title", JsonValue.str "t")] =
      normalizeArticle [("title", JsonValue.str "t")] :=
  c8_normalization_deterministic _ _ rfl

/-- Claim C9: defaulting is by truthiness — writing any falsy value
into a defaulted field produces the same normalized article as erasing
the field (url, which has no default, is excluded); moreover the
normalized author and urlToImage are never the empty string, and a
falsy normalized title, description, content or publishedAt can only be
the empty string. -/
theorem c9_falsy_defaulting (a : List (String × JsonValue)) (f : String) (v : JsonValue)
    (hv : truthyV v = false) (hf : f ≠ "url") :
    normalizeArticle (setField a f v) = normalizeArticle (eraseField a f) ∧
    (∀ x, olookup (normalizeArticle a) "author" = some (some x) →
      x ≠ JsonValue.str "") ∧
    (∀ x, olookup (normalizeArticle a) "urlToImage" = some (some x) →
      x ≠ JsonValue.str "") ∧
    (∀ g, g ∈ ["title", "description", "content", "publishedAt"] →
      ∀ x, olookup (normalizeArticle a) g = some (some x) → truthyV x = false →
        x = JsonValue.str "") := by
  refine ⟨?_, ?_, ?_, ?_⟩
  · simp only [normalizeArticle]
    rw [jsOr_set_erase a f v hv "title" (JsonValue.str ""),
      sourceName_set_erase a f v hv (JsonValue.str "Unknown"),
      jsOr_set_erase a f v hv "author" JsonValue.null,
      jsOr_set_erase a f v hv "description" (JsonValue.str ""),
      jsOr_set_erase a f v hv "content" (JsonValue.str ""),
      jsOr_set_erase a f v hv "urlToImage" JsonValue.null,
      jsOr_set_erase a f v hv "publishedAt" (JsonValue.str ""),
      olookup_setField_ne a f "url" v (Ne.symm hf),
      olookup_eraseField_ne a f "url" (Ne.symm hf)]
  · have hred : olookup (normalizeArticle a) "author" =
        some (some (jsOr (olookup a "author") JsonValue.null)) := rfl
    intro x hx
    rw [hred] at hx
    injection hx with h2
    injection h2 with h3
    rw [← h3]
    exact jsOr_null_ne_empty _
  · have hred : olookup (normalizeArticle a) "urlToImage" =
        some (some (jsOr (olookup a "urlToImage") JsonValue.null)) := rfl
    intro x hx
    rw [hred] at hx
    injection hx with h2
    injection h2 with h3
    rw [← h3]
    exact jsOr_null_ne_empty _
  · intro g hg
    have hcases : g = "title" ∨ g = "description" ∨ g = "content" ∨ g = "publishedAt" := by
      simpa using hg
    have run : ∀ t : Option JsonValue,
        ∀ x, some (some (jsOr t (JsonValue.str ""))) = some (some x) →
          truthyV x = false → x = JsonValue.str "" := by
      intro t x hx hfal
      injection hx with h2
      injection h2 with h3
      rw [← h3] at hfal ⊢
      exact jsOr_empty_falsy t hfal
    rcases hcases with rfl | rfl | rfl | rfl
    · intro x hx hfal
      have hred : olookup (normalizeArticle a) "title" =
          some (some (jsOr (olookup a "title") (JsonValue.str ""))) := rfl
      rw [hred] at hx
      exact run (olookup a "title") x hx hfal
    · intro x hx hfal
      have hred : olookup (normalizeArticle a) "description" =
          some (some (jsOr (olookup a "description") (JsonValue.str ""))) := rfl
      rw [hred] at hx
      exact run (olookup a "description") x hx hfal
    · intro x hx hfal
      have hred : olookup (normalizeArticle a) "content" =
          some (some (jsOr (olookup a "content") (JsonValue.str ""))) := rfl
      rw [hred] at hx
      exact run (olookup a "content") x hx hfal
    · intro x hx hfal
      have hred : olookup (normalizeArticle a) "publishedAt" =
          some (some (jsOr (olookup a "publishedAt") (JsonValue.str ""))) := rfl
      rw [hred] at hx
      exact run (olookup a "publishedAt") x hx hfal

/-- Claim C9 witness: the truthiness-defaulting theorem at the record
author maps to the empty string. -/
theorem c9_falsy_defaulting_witness :
    normalizeArticle (setField [] "author" (JsonValue.str "")) =
      normalizeArticle (eraseField [] "author") :=
  (c9_falsy_defaulting [] "author" (JsonValue.str "") (by decide) (by decide)).1

/-! ## Claim theorems about the news handler -/

/-- Claim C3: with the credential configured, a non-empty country or
category selects headlines mode, forwarding country, the lowercased
category and q only when non-empty, plus pageSize and page; otherwise
search mode forwards q (replaced by the literal fallback term news when
empty), from and to when given, sortBy, pageSize and page. -/
theorem c3_mode_selection (key q country category fromP toP pageSize page sortBy : String)
    (hkey : key ≠ "") :
    ((country ≠ "" ∨ category ≠ "") →
      ∃ ps, newsAction (some key) q country category fromP toP pageSize page sortBy =
          NewsAction.fetch topHeadlinesUrl ps ∧
        olookup ps "country" = (if country = "" then none else some country) ∧
        olookup ps "category" = (if category = "" then none else some (jsToLowerCase category)) ∧
        olookup ps "q" = (if q = "" then none else some q) ∧
        olookup ps "pageSize" = some pageSize ∧
        olookup ps "page" = some page) ∧
    (country = "" → category = "" →
      ∃ ps, newsAction (some key) q country category fromP toP pageSize page sortBy =
          NewsAction.fetch everythingUrl ps ∧
        olookup ps "q" = some (if q = "" then "news" else q) ∧
        olookup ps "from" = (if fromP = "" then none else some fromP) ∧
        olookup ps "to" = (if toP = "" then none else some toP) ∧
        olookup ps "sortBy" = some sortBy ∧
        olookup ps "pageSize" = some pageSize ∧
        olookup ps "page" = some page) := by
  have hk : optTruthy (some key) = true := by simp [optTruthy, hkey]
  constructor
  · intro h
    simp only [newsAction, hk, if_true]
    rw [if_pos h]
    by_cases hc : country = "" <;> by_cases hcat : category = "" <;> by_cases hq : q = ""
    · exact absurd h (by simp [hc, hcat])
    · exact absurd h (by simp [hc, hcat])
    all_goals simp only [hc, hcat, hq, if_pos, if_neg]
    all_goals simp [hc, hcat, hq]
    all_goals and_intros <;> rfl
  · intro hc hcat
    subst hc
    subst hcat
    simp only [newsAction, hk, if_true]
    rw [if_neg (by simp)]
    by_cases hq : q = "" <;> by_cases hf : fromP = "" <;> by_cases ht : toP = ""
    all_goals simp [hq, hf, ht, optTruthy, olookup, setField]

/-- Claim C3 witness: country us with empty category and q selects
headlines mode and forwards country, pageSize and page. -/
theorem c3_mode_selection_witness :
    ∃ ps, newsAction (some "K") "" "us" "" "" "" "10" "1" "publishedAt" =
        NewsAction.fetch topHeadlinesUrl ps ∧
      olookup ps "country" = some "us" ∧ olookup ps "category" = none ∧
      olookup ps "q" = none ∧
      olookup ps "pageSize" = some "10" ∧ olookup ps "page" = some "1" := by
  have h := (c3_mode_selection "K" "" "us" "" "" "" "10" "1" "publishedAt"
    (by decide)).1 (Or.inl (by decide))
  simpa using h

/-- Claim C4: a missing NEWS_API_KEY makes the news handler answer the
configuration error without issuing an upstream call, and a provider
other than openai or a missing OPENAI_API_KEY makes the enrich handler
answer its configuration error without issuing an upstream call. -/
theorem c4_config_errors (newsKey providerEnv aiKey : Option String)
    (q country category fromP toP pageSize page sortBy title description content : String) :
    (optTruthy newsKey = false →
      newsAction newsKey q country category fromP toP pageSize page sortBy =
        NewsAction.configError newsKeyMissingMsg ∧
      newsUpstreamCalls
        (newsAction newsKey q country category fromP toP pageSize page sortBy) = 0) ∧
    (¬ (resolveProvider providerEnv = "openai" ∧ optTruthy aiKey = true) →
      enrichAction providerEnv aiKey title description content =
        EnrichAction.configError aiNotConfiguredMsg ∧
      enrichUpstreamCalls (enrichAction providerEnv aiKey title description content) = 0) := by
  constructor
  · intro h
    constructor
    · simp [newsAction, h]
    · simp [newsAction, h, newsUpstreamCalls]
  · intro h
    have hcond : resolveProvider providerEnv ≠ "openai" ∨
        clientReady providerEnv aiKey = false := by
      by_cases hp : resolveProvider providerEnv = "openai"
      · right
        cases hb : optTruthy aiKey with
        | false => simp [clientReady, hp, hb]
        | true => exact absurd ⟨hp, hb⟩ h
      · exact Or.inl hp
    constructor
    · simp only [enrichAction]
      rw [if_pos hcond]
    · simp only [enrichAction]
      rw [if_pos hcond]
      rfl

/-- Claim C4 witness: both handlers at fully missing configuration. -/
theorem c4_config_errors_witness :
    newsAction none "" "" "" "" "" "10" "1" "publishedAt" =
      NewsAction.configError newsKeyMissingMsg ∧
    enrichAction none none "t" "d" "c" = EnrichAction.configError aiNotConfiguredMsg :=
  ⟨((c4_config_errors none none none "" "" "" "" "" "10" "1" "publishedAt" "t" "d" "c").1
      rfl).1,
    ((c4_config_errors none none none "" "" "" "" "" "10" "1" "publishedAt" "t" "d" "c").2
      (fun hc => absurd hc.2 (by decide))).1⟩

/-! ## Claim theorems about the enrich request side -/

/-- Claim C7: with the provider configured, the model is called with
the fixed system message and a user prompt embedding the text blob, and
the blob is the concatenation of exactly the non-empty fields among
title, description, content, in that order, separated by blank lines —
empty when all three are empty. -/
theorem c7_text_blob (providerEnv openaiKey : Option String)
    (title description content : String)
    (hp : resolveProvider providerEnv = "openai") (hk : optTruthy openaiKey = true) :
    enrichAction providerEnv openaiKey title description content =
      EnrichAction.callModel "gpt-4o-mini"
        [("system", "You are a helpful news assistant."),
         ("user", mkPrompt (textBlob title description content))] ∧
    textBlob title description content =
      (if title = "" then
        (if description = "" then (if content = "" then "" else content)
         else (if content = "" then description else description ++ "\n\n" ++ content))
       else
        (if description = "" then
          (if content = "" then title else title ++ "\n\n" ++ content)
         else
          (if content = "" then title ++ "\n\n" ++ description
           else title ++ "\n\n" ++ description ++ "\n\n" ++ content))) := by
  constructor
  · simp [enrichAction, hp, clientReady, hk]
  · by_cases ht : title = "" <;> by_cases hd : description = "" <;> by_cases hc : content = "" <;>
      simp [textBlob, ht, hd, hc, String.intercalate] <;> rfl

/-- Claim C7 witness: the blob for a title, an empty description and a
content is the title and the content separated by a blank line. -/
theorem c7_text_blob_witness :
    enrichAction (some "openai") (some "k") "t" "" "c" =
      EnrichAction.callModel "gpt-4o-mini"
        [("system", "You are a helpful news assistant."),
         ("user", mkPrompt (textBlob "t" "" "c"))] ∧
    textBlob "t" "" "c" = "t" ++ "\n\n" ++ "c" := by
  have h := c7_text_blob (some "openai") (some "k") "t" "" "c" (by decide) (by decide)
  simpa using h

/-! ## Lemmas about the ensure-shape coercion -/

/-- The takeaways values the repair turns into an array of exactly 3
elements: any array, or anything falsy (including an absent field). -/
def takeawaysCoercible : Option JsonValue → Bool
  | some (.arr _) => true
  | t => !truthyO t

/-- A convenience constructor: a completion whose single choice carries
the given message text. -/
def oneTextCompletion (s : String) : Completion :=
  ⟨[⟨some ⟨some s⟩⟩]⟩

theorem coerceTakeaways_ok (t : Option JsonValue) (h : takeawaysCoercible t = true) :
    ∃ xs, coerceTakeaways t = Except.ok (JsonValue.arr xs) ∧ xs.length = 3 := by
  match t with
  | none => exact ⟨_, rfl, rfl⟩
  | some (.arr xs) =>
    by_cases h3 : xs.length = 3
    · exact ⟨xs, by simp [coerceTakeaways, h3], h3⟩
    · refine ⟨(xs.take 3 ++ [JsonValue.str "", JsonValue.str "", JsonValue.str ""]).take 3,
        by simp [coerceTakeaways, h3], ?_⟩
      simp only [List.length_take, List.length_append, List.length_cons, List.length_nil]
      omega
  | some .null => exact ⟨_, rfl, rfl⟩
  | some (.bool b) =>
    have hb : b = false := by simpa [takeawaysCoercible, truthyO, truthyV] using h
    subst hb
    exact ⟨_, rfl, rfl⟩
  | some (.num m e) =>
    have hm : m = 0 := by simpa [takeawaysCoercible, truthyO, truthyV] using h
    subst hm
    exact ⟨_, rfl, rfl⟩
  | some (.str s) =>
    have hs : s = "" := by simpa [takeawaysCoercible, truthyO, truthyV] using h
    subst hs
    exact ⟨_, rfl, rfl⟩
  | some (.obj gs) => simp [takeawaysCoercible, truthyO, truthyV] at h

theorem allowedSentiment_spec (t : Option JsonValue) (h : allowedSentiment t = true) :
    t = some (JsonValue.str "Positive") ∨ t = some (JsonValue.str "Negative") ∨
      t = some (JsonValue.str "Neutral") := by
  match t with
  | none => simp [allowedSentiment] at h
  | some (.str s) =>
    simp only [allowedSentiment, Bool.or_eq_true, beq_iff_eq] at h
    rcases h with (h | h) | h <;> subst h <;> simp
  | some .null => simp [allowedSentiment] at h
  | some (.bool b) => simp [allowedSentiment] at h
  | some (.num m e) => simp [allowedSentiment] at h
  | some (.arr xs) => simp [allowedSentiment] at h
  | some (.obj gs) => simp [allowedSentiment] at h

theorem coerceSummary_other (fs : List (String × JsonValue)) (k : String)
    (hk : k ≠ "summary100") : olookup (coerceSummary fs) k = olookup fs k :=
  olookup_setField_ne fs "summary100" k _ hk

theorem coerceSummary_self (fs : List (String × JsonValue)) :
    olookup (coerceSummary fs) "summary100" =
      some (JsonValue.str (jsSlice (jsToString (jsOr (olookup fs "summary100")
        (JsonValue.str ""))) 900)) :=
  olookup_setField_self fs "summary100" _

theorem coerceSentiment_other (fs : List (String × JsonValue)) (k : String)
    (hk : k ≠ "sentiment") : olookup (coerceSentiment fs) k = olookup fs k := by
  by_cases h : allowedSentiment (olookup fs "sentiment") = true
  · simp [coerceSentiment, h]
  · simp [coerceSentiment, h, olookup_setField_ne _ _ _ _ hk]

theorem coerceSentiment_allowed (fs : List (String × JsonValue)) :
    olookup (coerceSentiment fs) "sentiment" = some (JsonValue.str "Positive") ∨
    olookup (coerceSentiment fs) "sentiment" = some (JsonValue.str "Negative") ∨
    olookup (coerceSentiment fs) "sentiment" = some (JsonValue.str "Neutral") := by
  by_cases h : allowedSentiment (olookup fs "sentiment") = true
  · have hs := allowedSentiment_spec _ h
    simpa [coerceSentiment, h] using hs
  · simp [coerceSentiment, h, olookup_setField_self]

theorem jsSlice_length_le (s : String) (n : Nat) : (jsSlice s n).length ≤ n := by
  have : (jsSlice s n).length = (s.data.take n).length := rfl
  rw [this]
  simp [List.length_take]

theorem ensureShape_obj (fs : List (String × JsonValue))
    (h : takeawaysCoercible (olookup fs "takeaways") = true) :
    ∃ gs, ensureShape (JsonValue.obj fs) = Except.ok (JsonValue.obj gs) ∧
      (∃ s, olookup gs "summary100" = some (JsonValue.str s) ∧ s.length ≤ 900) ∧
      (olookup gs "sentiment" = some (JsonValue.str "Positive") ∨
       olookup gs "sentiment" = some (JsonValue.str "Negative") ∨
       olookup gs "sentiment" = some (JsonValue.str "Neutral")) ∧
      (∃ xs, olookup gs "takeaways" = some (JsonValue.arr xs) ∧ xs.length = 3) := by
  have hT : olookup (coerceSentiment (coerceSummary fs)) "takeaways" =
      olookup fs "takeaways" := by
    rw [coerceSentiment_other _ _ (by decide), coerceSummary_other _ _ (by decide)]
  obtain ⟨xs, hok, hlen⟩ :=
    coerceTakeaways_ok (olookup (coerceSentiment (coerceSummary fs)) "takeaways")
      (by rw [hT]; exact h)
  refine ⟨setField (coerceSentiment (coerceSummary fs)) "takeaways" (.arr xs),
    ?_, ?_, ?_, ?_⟩
  · simp only [ensureShape, hok]
  · refine ⟨jsSlice (jsToString (jsOr (olookup fs "summary100") (JsonValue.str ""))) 900,
      ?_, jsSlice_length_le _ _⟩
    rw [olookup_setField_ne _ _ _ _ (by decide), coerceSentiment_other _ _ (by decide),
      coerceSummary_self]
  · rw [olookup_setField_ne _ _ _ _ (by decide)]
    exact coerceSentiment_allowed _
  · exact ⟨xs, olookup_setField_self _ _ _, hlen⟩

/-! ## Claim theorems about the enrich response side -/

/-- Claim C1, counterexample: a completion whose JSON carries
takeaways [1,2,3] yields a successful 200 response whose takeaways are
three numbers, not three strings — the EnrichmentResult shape of spec
§3 does not hold, and the malformed elements are propagated. -/
theorem c1_counterexample :
    enrichRespond (oneTextCompletion "\x7b\"takeaways\":[1,2,3]\x7d") =
      ⟨200, JsonValue.obj
        [("takeaways", JsonValue.arr [JsonValue.num 1 0, JsonValue.num 2 0, JsonValue.num 3 0]),
         ("summary100", JsonValue.str ""),
         ("sentiment", JsonValue.str "Neutral")]⟩ ∧
    isEnrichmentResult
      (enrichRespond (oneTextCompletion "\x7b\"takeaways\":[1,2,3]\x7d")).body = false := by
  exact ⟨rfl, rfl⟩

/-- Claim C1, amended: whenever the value the coercion block receives
(the parsed completion JSON, or the parse-failure fallback) is an
object whose takeaways field is absent, falsy or an array, the enrich
response is a 200 object whose summary100 is a string of at most 900
characters, whose sentiment is exactly one of Positive, Negative,
Neutral, and whose takeaways is an array of exactly 3 elements — the
elements, however, are not coerced to strings. -/
theorem c1_amended_enrich_shape (c : Completion) (fs : List (String × JsonValue))
    (hp : parsedOf c = JsonValue.obj fs)
    (ht : takeawaysCoercible (olookup fs "takeaways") = true) :
    (enrichRespond c).status = 200 ∧
    ∃ gs, (enrichRespond c).body = JsonValue.obj gs ∧
      (∃ s, olookup gs "summary100" = some (JsonValue.str s) ∧ s.length ≤ 900) ∧
      (olookup gs "sentiment" = some (JsonValue.str "Positive") ∨
       olookup gs "sentiment" = some (JsonValue.str "Negative") ∨
       olookup gs "sentiment" = some (JsonValue.str "Neutral")) ∧
      (∃ xs, olookup gs "takeaways" = some (JsonValue.arr xs) ∧ xs.length = 3) := by
  obtain ⟨gs, hok, hsum, hsent, htk⟩ := ensureShape_obj fs ht
  have hr : enrichRespond c = ⟨200, JsonValue.obj gs⟩ := by
    simp only [enrichRespond, hp, hok]
  rw [hr]
  exact ⟨rfl, gs, rfl, hsum, hsent, htk⟩

/-- Claim C1 witness: the amended theorem at the empty-object
completion. -/
theorem c1_amended_enrich_shape_witness :
    (enrichRespond (oneTextCompletion "\x7b\x7d")).status = 200 ∧
    ∃ gs, (enrichRespond (oneTextCompletion "\x7b\x7d")).body = JsonValue.obj gs ∧
      (∃ s, olookup gs "summary100" = some (JsonValue.str s) ∧ s.length ≤ 900) ∧
      (olookup gs "sentiment" = some (JsonValue.str "Positive") ∨
       olookup gs "sentiment" = some (JsonValue.str "Negative") ∨
       olookup gs "sentiment" = some (JsonValue.str "Neutral")) ∧
      (∃ xs, olookup gs "takeaways" = some (JsonValue.arr xs) ∧ xs.length = 3) :=
  c1_amended_enrich_shape (oneTextCompletion "\x7b\x7d") [] rfl rfl

/-- Claim C5: whenever the raw completion text fails to parse as JSON,
the enrich response is a 200 carrying exactly the fixed fallback
result — the parse failure is never surfaced as an error response. -/
theorem c5_parse_failure_fallback (c : Completion)
    (h : jsonParse (rawText c) = none) :
    enrichRespond c = ⟨200, fallbackParsed⟩ := by
  have hp : parsedOf c = fallbackParsed := by
    simp [parsedOf, h]
  simp only [enrichRespond, hp]
  rfl

/-- Claim C5 witness: a completion whose text is not JSON produces the
200 fallback response. -/
theorem c5_parse_failure_fallback_witness :
    enrichRespond (oneTextCompletion "The completion was not JSON.") =
      ⟨200, fallbackParsed⟩ :=
  c5_parse_failure_fallback (oneTextCompletion "The completion was not JSON.") rfl

/-- Claim C10: when the completion has no choices or its message text
is missing, empty or whitespace-only, the raw text is defaulted to the
two-character object literal, which parses successfully to the empty
object, so the response is 200 with empty summary, Neutral sentiment
and three empty-string takeaways — not the parse-error fallback. -/
theorem c10_empty_completion (c : Completion)
    (h : contentText c = none ∨ ∃ s, contentText c = some s ∧ jsTrim s = "") :
    rawText c = "\x7b\x7d" ∧
    jsonParse "\x7b\x7d" = some (JsonValue.obj []) ∧
    enrichRespond c =
      ⟨200, JsonValue.obj
        [("summary100", JsonValue.str ""),
         ("sentiment", JsonValue.str "Neutral"),
         ("takeaways", JsonValue.arr [JsonValue.str "", JsonValue.str "", JsonValue.str ""])]⟩ ∧
    beqJson (enrichRespond c).body fallbackParsed = false := by
  have hraw : rawText c = "\x7b\x7d" := by
    rcases h with h | ⟨s, hs, htrim⟩
    · simp [rawText, h]
    · simp [rawText, hs, htrim]
  have hr : enrichRespond c =
      ⟨200, JsonValue.obj
        [("summary100", JsonValue.str ""),
         ("sentiment", JsonValue.str "Neutral"),
         ("takeaways", JsonValue.arr [JsonValue.str "", JsonValue.str "", JsonValue.str ""])]⟩ := by
    simp only [enrichRespond, parsedOf, hraw]
    rfl
  refine ⟨hraw, rfl, hr, ?_⟩
  rw [hr]
  rfl

/-- Claim C10 witness: the no-choices completion. -/
theorem c10_empty_completion_witness :
    rawText ⟨[]⟩ = "\x7b\x7d" ∧
    jsonParse "\x7b\x7d" = some (JsonValue.obj []) ∧
    enrichRespond ⟨[]⟩ =
      ⟨200, JsonValue.obj
        [("summary100", JsonValue.str ""),
         ("sentiment", JsonValue.str "Neutral"),
         ("takeaways", JsonValue.arr [JsonValue.str "", JsonValue.str "", JsonValue.str ""])]⟩ ∧
    beqJson (enrichRespond ⟨[]⟩).body fallbackParsed = false :=
  c10_empty_completion ⟨[]⟩ (Or.inl rfl)

end FlashRead
